import Mathlib

/-!
Verification of the CareSynccNI patient-record and code-mapping application.

The development shallowly embeds the data model and the operations of the
repository:

* the row-to-domain patient mapper of `src/client/pages/PatientDetail.tsx`,
* the FHIR bundle builder `exportFHIR` of the same file,
* the remote-data-gateway list operations (ordered supabase selects),
* the CSV import pipeline of `src/client/pages/CodeMapping.tsx`
  (`mapRowToCodemap`, `filterOutExisting`, `handleCSVUpload`),
* the generative-chat route of the server (`router.post "/ask"`).

JavaScript string primitives (`trim`, `toLowerCase`, `slice`,
single-occurrence `replace`) are modelled at the character-list level so
that all definitions evaluate inside the kernel.  JavaScript string
truthiness (`""` and `undefined`/`null` are falsy) is modelled by
`orUndef` on `Option String`.
-/

/-- Model of JavaScript `String.prototype.toLowerCase` (ASCII inputs). -/
def jsLower (s : String) : String := ⟨s.data.map Char.toLower⟩

/-- Model of JavaScript `String.prototype.trim`. -/
def jsTrim (s : String) : String :=
  ⟨((s.data.dropWhile Char.isWhitespace).reverse.dropWhile Char.isWhitespace).reverse⟩

/-- Model of JavaScript `s.slice(0, n)`. -/
def jsTake (s : String) (n : Nat) : String := ⟨s.data.take n⟩

/-- Replace the first occurrence of a character in a character list. -/
def replFirst (c r : Char) : List Char → List Char
  | [] => []
  | x :: xs => if x = c then r :: xs else x :: replFirst c r xs

/-- Model of JavaScript `s.replace(c, r)` with a one-character pattern:
only the first occurrence is replaced. -/
def jsReplaceFirst (s : String) (c r : Char) : String := ⟨replFirst c r s.data⟩

/-- JavaScript `x || undefined` on an optional string: `null`/`undefined`
and the empty string collapse to "absent", every other string is kept. -/
def orUndef (o : Option String) : Option String :=
  match o with
  | some s => if s = "" then none else some s
  | none => none

/-!
## The persisted and domain patient shapes (`PatientDetail.tsx`)
-/

/-- The persisted patient record (`interface PatientRow` of
`PatientDetail.tsx`); `null` database columns are `none`. -/
structure PatientRow where
  id : String
  created_at : String
  first_name : String
  last_name : String
  date_of_birth : Option String
  gender : Option String
  admit_date : Option String
  email : Option String
  phone : Option String
  guardian_name : Option String
  guardian_phone : Option String
  address : Option String
deriving DecidableEq

/-- The UI-facing patient object (`interface Patient` of
`PatientDetail.tsx`); absent optional fields are `none`. -/
structure Patient where
  id : String
  firstName : String
  lastName : String
  dateOfBirth : Option String
  gender : Option String
  admitDate : Option String
  email : Option String
  phone : Option String
  guardianName : Option String
  guardianPhone : Option String
  address : Option String
  createdAt : String
deriving DecidableEq

/-- Model of `row.created_at.slice(0, 19).replace("T", " ")` in `mapPatient`. -/
def fmtTimestamp (s : String) : String := jsReplaceFirst (jsTake s 19) 'T' ' '

/-- Function `mapPatient` of `PatientDetail.tsx`: row to domain object, with
`|| undefined` on each optional column and a reformatted timestamp. -/
def mapPatient (row : PatientRow) : Patient :=
  { id := row.id
    firstName := row.first_name
    lastName := row.last_name
    dateOfBirth := orUndef row.date_of_birth
    gender := orUndef row.gender
    admitDate := orUndef row.admit_date
    email := orUndef row.email
    phone := orUndef row.phone
    guardianName := orUndef row.guardian_name
    guardianPhone := orUndef row.guardian_phone
    address := orUndef row.address
    createdAt := fmtTimestamp row.created_at }

/-- Modelled from the spec: the inverse direction of the row-domain mapper
("given a partial domain object, produce a flat record suitable for
persistence, substituting `null` for any omitted optional field" and
renaming field-style keys back to column-style keys).  The repository has
no named inverse function for patients; the insert paths build rows with
exactly this `null`-for-absent substitution. -/
def patientToRow (p : Patient) : PatientRow :=
  { id := p.id
    created_at := p.createdAt
    first_name := p.firstName
    last_name := p.lastName
    date_of_birth := p.dateOfBirth
    gender := p.gender
    admit_date := p.admitDate
    email := p.email
    phone := p.phone
    guardian_name := p.guardianName
    guardian_phone := p.guardianPhone
    address := p.address }

/-- The persisted diagnosis record (`interface DiagnosisRow`). -/
structure DiagnosisRow where
  id : String
  created_at : String
  patient_id : String
  namaste_code : String
  icd11_code : String
  symptoms : Option String
  clinical_notes : Option String
deriving DecidableEq

/-- The UI-facing diagnosis object (`interface Diagnosis`). -/
structure Diagnosis where
  id : String
  namasteCode : String
  icd11Code : String
  symptoms : Option String
  clinicalNotes : Option String
  recordedAt : String
deriving DecidableEq

/-- Function `mapDiagnosis` of `PatientDetail.tsx`. -/
def mapDiagnosis (row : DiagnosisRow) : Diagnosis :=
  { id := row.id
    namasteCode := row.namaste_code
    icd11Code := row.icd11_code
    symptoms := orUndef row.symptoms
    clinicalNotes := orUndef row.clinical_notes
    recordedAt := fmtTimestamp row.created_at }

/-!
## JSON documents and the FHIR bundle builder (`exportFHIR`)

The model describes the serialized document: object properties whose
JavaScript value is `undefined` are omitted by `JSON.stringify` and are
therefore simply not present in the field list.
-/

/-- JSON values, as serialized by `JSON.stringify`. -/
inductive Json where
  | null
  | str (s : String)
  | arr (items : List Json)
  | obj (fields : List (String × Json))

/-- First-match association lookup in a JSON object. -/
def jFind : List (String × Json) → String → Option Json
  | [], _ => none
  | (k', v) :: fs, k => if k' = k then some v else jFind fs k

/-- Look a key up in a JSON object; `none` on other JSON forms. -/
def jLookup (j : Json) (k : String) : Option Json :=
  match j with
  | .obj fs => jFind fs k
  | _ => none

/-- Fuel-bounded check that a JSON tree contains no `null` anywhere.
Exhausted fuel answers `false`, so a `true` result certifies both that
the tree's depth is below the fuel and that no `null` occurs in it. -/
def noNullF : Nat → Json → Bool
  | 0, _ => false
  | _ + 1, .null => false
  | _ + 1, .str _ => true
  | f + 1, .arr xs => xs.all fun x => noNullF f x
  | f + 1, .obj fs => fs.all fun kv => noNullF f kv.2

/-- The `telecom` array of the exported Patient resource:
the email and phone entries with absent ones filtered out. -/
def telecomEntries (p : Patient) : List Json :=
  (match orUndef p.email with
    | some e => [Json.obj [("system", Json.str "email"), ("value", Json.str e)]]
    | none => []) ++
  (match orUndef p.phone with
    | some ph => [Json.obj [("system", Json.str "phone"), ("value", Json.str ph)]]
    | none => [])

/-- The FHIR `Patient` resource built by `exportFHIR`.  `birthDate` and
`gender` are plain properties (omitted by `JSON.stringify` exactly when
absent); `address` is guarded by JavaScript truthiness; `telecom` is
always emitted. -/
def patientResource (p : Patient) : Json :=
  Json.obj
    ([("resourceType", Json.str "Patient"), ("id", Json.str p.id),
      ("name", Json.arr [Json.obj
        [("use", Json.str "official"),
         ("given", Json.arr [Json.str p.firstName]),
         ("family", Json.str p.lastName)]])]
      ++ (match p.dateOfBirth with
          | some d => [("birthDate", Json.str d)]
          | none => [])
      ++ (match p.gender with
          | some g => [("gender", Json.str g)]
          | none => [])
      ++ [("telecom", Json.arr (telecomEntries p))]
      ++ (match orUndef p.address with
          | some a => [("address", Json.arr [Json.obj [("text", Json.str a)]])]
          | none => []))

/-- The `note` array of an exported Condition resource: a symptoms text
and a clinical-notes text, each spread in only when truthy. -/
def conditionNotes (d : Diagnosis) : List Json :=
  (match orUndef d.symptoms with
    | some s => [Json.obj [("text", Json.str ("Symptoms: " ++ s))]]
    | none => []) ++
  (match orUndef d.clinicalNotes with
    | some n => [Json.obj [("text", Json.str n)]]
    | none => [])

/-- The FHIR `Condition` resource built by `exportFHIR` for one diagnosis. -/
def conditionResource (pid : String) (d : Diagnosis) : Json :=
  Json.obj
    [("resourceType", Json.str "Condition"), ("id", Json.str d.id),
     ("code", Json.obj [("coding", Json.arr [Json.obj
       [("system", Json.str "http://id.who.int/icd/release/11/mms"),
        ("code", Json.str d.icd11Code)]])]),
     ("subject", Json.obj [("reference", Json.str ("Patient/" ++ pid))]),
     ("recordedDate", Json.str d.recordedAt),
     ("note", Json.arr (conditionNotes d))]

/-- The bundle document built by `exportFHIR`.  `now` is the value of
`new Date().toISOString()` at the moment of invocation. -/
def buildBundle (now : String) (patient : Patient) (diagnoses : List Diagnosis) : Json :=
  Json.obj
    [("resourceType", Json.str "Bundle"), ("type", Json.str "document"),
     ("timestamp", Json.str now),
     ("entry", Json.arr
       (Json.obj [("resource", patientResource patient)] ::
        diagnoses.map fun d => Json.obj [("resource", conditionResource patient.id d)]))]

/-- The entry list of a bundle document. -/
def bundleEntries (b : Json) : List Json :=
  match jLookup b "entry" with
  | some (.arr l) => l
  | _ => []

/-- Whether a bundle entry wraps a resource of the given type. -/
def entryHasType (t : String) (e : Json) : Bool :=
  match jLookup e "resource" with
  | some r =>
    match jLookup r "resourceType" with
    | some (.str s) => s = t
    | _ => false
  | _ => false

/-- The Condition entries of a bundle. -/
def conditionEntries (b : Json) : List Json :=
  (bundleEntries b).filter (entryHasType "Condition")

/-- The `subject.reference` of a bundle entry's resource. -/
def subjectRef (e : Json) : Option Json :=
  (jLookup e "resource").bind fun r =>
    (jLookup r "subject").bind fun s => jLookup s "reference"

/-- Remove one top-level key of a JSON object. -/
def stripTop (k : String) : Json → Json
  | .obj fs => .obj (fs.filter fun kv => decide (kv.1 ≠ k))
  | j => j

/-!
## Remote data gateway: ordered list operations

Supabase `select().order("created_at", ...)` sorts on the timestamp
column.  ISO-8601 timestamps compare chronologically exactly as their
character sequences compare lexicographically, so the column order is
modelled by lexicographic comparison of the stored strings.
-/

/-- Lexicographic less-or-equal on character lists. -/
def charListLe : List Char → List Char → Bool
  | [], _ => true
  | _ :: _, [] => false
  | a :: as, b :: bs => if a = b then charListLe as bs else decide (a < b)

/-- Timestamp-column comparison used by `order("created_at", ...)`. -/
def tsLe (s t : String) : Bool := charListLe s.data t.data

/-- The persisted patient-list record of `Patients.tsx`
(`interface PatientRow` there, with the extra columns of that page). -/
structure PatientListRow where
  id : String
  created_at : String
  user_id : String
  first_name : String
  last_name : String
  date_of_birth : Option String
  gender : Option String
  admit_date : Option String
  diagnosis : Option String
  email : Option String
  phone : Option String
  guardian_name : Option String
  guardian_phone : Option String
  address : Option String
  diagnosis_count : Nat
deriving DecidableEq

/-- The persisted code-mapping record of the `codemap` table. -/
structure CodemapRow where
  id : String
  created_at : String
  namaste_code : String
  namaste_name : Option String
  icd11_code : String
  icd11_name : Option String
  category : String
  symptoms : Option String
  description : Option String
  status : String
deriving DecidableEq

/-- Function `fetchPatients` of `Patients.tsx`:
select all patients ordered by `created_at` with ascending false. -/
def fetchPatients (store : List PatientListRow) : List PatientListRow :=
  List.insertionSort (fun a b => tsLe b.created_at a.created_at = true) store

/-- Function `fetchMappings` of `CodeMapping.tsx`:
select all code mappings ordered by `created_at` with ascending false. -/
def fetchMappings (store : List CodemapRow) : List CodemapRow :=
  List.insertionSort (fun a b => tsLe b.created_at a.created_at = true) store

/-- The diagnosis query of `load` in `PatientDetail.tsx`:
`from("patient_diagnoses").select("*").eq("patient_id", patientId)`
followed by ordering on `created_at` with ascending true. -/
def loadDiagnoses (patientId : String) (store : List DiagnosisRow) : List DiagnosisRow :=
  List.insertionSort (fun a b => tsLe a.created_at b.created_at = true)
    (store.filter fun d => d.patient_id = patientId)

/-!
## CSV import pipeline (`CodeMapping.tsx`)

A parsed CSV row is its list of header/value pairs (PapaParse hands each
row to `mapRowToCodemap` as a string-keyed record).  The supabase store
of the `codemap` table is modelled, for the import path, by the list of
its records projected to the inserted shape.
-/

/-- A parsed CSV row: header/value pairs in column order. -/
abbrev CsvRow := List (String × String)

/-- Function `normalizeKey` of `CodeMapping.tsx`: `k.toString().trim().toLowerCase()`. -/
def normalizeKey (k : String) : String := jsLower (jsTrim k)

/-- Lookup in the `normalized` record built by `mapRowToCodemap`: keys are
normalized and a later duplicate header overwrites an earlier one. -/
def lookupNorm (row : CsvRow) (c : String) : Option String :=
  row.foldl (fun acc kv => if normalizeKey kv.1 = c then some kv.2 else acc) none

/-- Helper `find` of `mapRowToCodemap`: first candidate header whose value is
present and non-blank. -/
def findField (row : CsvRow) : List String → Option String
  | [] => none
  | c :: cs =>
    match lookupNorm row c with
    | some v => if jsTrim v = "" then findField row cs else some v
    | none => findField row cs

/-- The record shape inserted into the `codemap` table by the CSV import. -/
structure CodemapRec where
  namaste_code : String
  namaste_name : Option String
  icd11_code : String
  icd11_name : Option String
  category : String
  symptoms : Option String
  description : Option String
  status : String
deriving DecidableEq

/-- Function `mapRowToCodemap` of `CodeMapping.tsx`. -/
def mapRowToCodemap (row : CsvRow) : CodemapRec :=
  let namaste_code := (findField row ["namaste_code", "namaste code", "namaste", "namste_code", "namste code"]).getD ""
  let namaste_name := findField row ["namaste_name", "namaste name", "namaste_description", "namaste description"]
  let icd11_code := (findField row ["icd11_code", "icd11 code", "icd_code", "icd code", "icd11", "icd"]).getD ""
  let icd11_name := findField row ["icd11_name", "icd name", "icd11_name", "icd11 name", "icd_description"]
  let category := (findField row ["category", "system", "trad_system"]).getD "Ayurveda"
  let symptoms := findField row ["symptoms", "symptom", "symptom_list"]
  let description := findField row ["description", "desc", "details"]
  let status := jsLower ((findField row ["status"]).getD "pending")
  { namaste_code := jsTrim namaste_code
    namaste_name := namaste_name.map jsTrim
    icd11_code := jsTrim icd11_code
    icd11_name := icd11_name.map jsTrim
    category := if (["Ayurveda", "Siddha", "Unani"] : List String).contains category then category else "Ayurveda"
    symptoms := symptoms.map jsTrim
    description := description.map jsTrim
    status := if (["verified", "pending", "rejected"] : List String).contains status then status else "pending" }

/-- The mapped import set of `handleCSVUpload`:
`parsed.map(mapRowToCodemap).filter((r) => r.namaste_code && r.icd11_code)`. -/
def importMapped (parsed : List CsvRow) : List CodemapRec :=
  (parsed.map mapRowToCodemap).filter fun r =>
    decide (r.namaste_code ≠ "") && decide (r.icd11_code ≠ "")

/-- The duplicate key of `filterOutExisting`:
lower-cased trimmed NAMASTE and ICD-11 codes joined by a separator. -/
def recKey (r : CodemapRec) : String :=
  jsLower (jsTrim r.namaste_code) ++ "||" ++ jsLower (jsTrim r.icd11_code)

/-- Model of `Array.from(new Set(l))`: order-preserving deduplication. -/
def dedupKeep : List String → List String
  | [] => []
  | x :: xs => x :: (dedupKeep xs).filter fun y => decide (y ≠ x)

/-- The `namasteCodes` of one duplicate-check chunk: deduplicated
first components with blank codes dropped (`.filter(Boolean)`). -/
def namasteCodes (chunk : List (String × String)) : List String :=
  (dedupKeep (chunk.map Prod.fst)).filter fun s => decide (s ≠ "")

/-- Split a list into consecutive chunks of size `n`, via fuel so that the
definition evaluates inside the kernel. -/
def chunksOfAux (n : Nat) {α : Type} : Nat → List α → List (List α)
  | _, [] => []
  | 0, _ :: _ => []
  | fuel + 1, x :: xs => (x :: xs).take n :: chunksOfAux n fuel ((x :: xs).drop n)

/-- The chunking loop `for (let i = 0; i < l.length; i += n)`. -/
def chunksOf (n : Nat) {α : Type} (l : List α) : List (List α) :=
  chunksOfAux n l.length l

/-- The result shape of `filterOutExisting`: a plain row array on a query
error (or an empty input), else the `\x7b uniqueRows, skipped \x7d` record. -/
inductive FilterResult where
  | plain (rows : List CodemapRec)
  | filtered (uniqueRows : List CodemapRec) (skipped : Nat)
deriving DecidableEq

/-- The duplicate-check select of one chunk:
`from("codemap").select("namaste_code,icd11_code").in("namaste_code", codes).limit(1000)`
issued against a store.  SQL `IN` compares text case-sensitively. -/
def okSel (store : List CodemapRec) : List String → Option (List CodemapRec) :=
  fun codes => some ((store.filter fun e => codes.contains e.namaste_code).take 1000)

/-- A duplicate-check select that fails (network or store error). -/
def badSel : List String → Option (List CodemapRec) := fun _ => none

/-- The chunk loop of `filterOutExisting`: accumulate the existing-pair
keys over all chunks, aborting on the first failed select. -/
def collectKeys (sel : List String → Option (List CodemapRec)) :
    List (List (String × String)) → List String → Option (List String)
  | [], acc => some acc
  | c :: cs, acc =>
    match sel (namasteCodes c) with
    | none => none
    | some data => collectKeys sel cs (acc ++ data.map recKey)

/-- Function `filterOutExisting` of `CodeMapping.tsx`. -/
def filterOutExisting (sel : List String → Option (List CodemapRec))
    (rows : List CodemapRec) : FilterResult :=
  if rows.isEmpty then .plain []
  else
    match collectKeys sel (chunksOf 100 (rows.map fun r => (r.namaste_code, r.icd11_code))) [] with
    | none => .plain rows
    | some keys =>
      let uniqueRows := rows.filter fun r => !(keys.contains (recKey r))
      .filtered uniqueRows (rows.length - uniqueRows.length)

/-- One `supabase.from("codemap").insert(chunk)` call: appends the chunk
to the store, or fails when the external store reports an error
(`fail` says which chunks the store rejects). -/
def insOf (fail : List CodemapRec → Bool) :
    List CodemapRec → List CodemapRec → Option (List CodemapRec) :=
  fun chunk store => if fail chunk then none else some (store ++ chunk)

/-- The sequential insert loop of `handleCSVUpload`: batches in order,
stop at the first failed insert.  Returns the final store, the number of
inserted rows and whether every batch succeeded. -/
def insertBatches (ins : List CodemapRec → List CodemapRec → Option (List CodemapRec)) :
    List (List CodemapRec) → List CodemapRec → Nat → List CodemapRec × Nat × Bool
  | [], store, inserted => (store, inserted, true)
  | c :: cs, store, inserted =>
    match ins c store with
    | none => (store, inserted, false)
    | some s => insertBatches ins cs s (inserted + c.length)

/-- The observable outcome of one CSV upload. -/
inductive ImportOutcome where
  | noRows
  | invalidCsv
  | noNewRows (total : Nat)
  | insertError (store : List CodemapRec) (inserted : Nat)
  | complete (store : List CodemapRec) (inserted : Nat) (skipped : Nat)
deriving DecidableEq

/-- Function `handleCSVUpload` of `CodeMapping.tsx`, from the parsed rows on:
map and filter the rows, run the duplicate check (a failed check falls
back to the unfiltered rows with `skipped = 0`), then insert the
remaining rows in sequential batches of 200. -/
def csvImport (sel : List String → Option (List CodemapRec))
    (fail : List CodemapRec → Bool)
    (store : List CodemapRec) (parsed : List CsvRow) : ImportOutcome :=
  if parsed.isEmpty then .noRows
  else
    let mapped := importMapped parsed
    if mapped.isEmpty then .invalidCsv
    else
      let fr := filterOutExisting sel mapped
      let uniqueRows := match fr with
        | .filtered u _ => u
        | .plain r => r
      let skipped := match fr with
        | .filtered _ s => s
        | .plain _ => 0
      if uniqueRows.isEmpty then .noNewRows mapped.length
      else
        let res := insertBatches (insOf fail) (chunksOf 200 uniqueRows) store 0
        if res.2.2 then .complete res.1 res.2.1 skipped
        else .insertError res.1 res.2.1

/-!
## The generative-chat route (`router.post "/ask"`)
-/

/-- The fields of the external endpoint's JSON reply that the route
reads: `candidates?.[0]?.content?.parts?.[0]?.text` and
`promptFeedback?.blockReason`. -/
structure GenResponse where
  firstText : Option String
  blockReason : Option String
deriving DecidableEq

/-- Outcome of the external `fetch`: a parsed reply, or a thrown error
with its message. -/
inductive CallOutcome where
  | ok (resp : GenResponse)
  | fail (message : String)
deriving DecidableEq

/-- Expression `text || blockReason || "I could not generate a response."`. -/
def pickAnswer (resp : GenResponse) : String :=
  match orUndef resp.firstText with
  | some t => t
  | none => (orUndef resp.blockReason).getD "I could not generate a response."

/-- The `/ask` route handler: answer string, and whether the external
endpoint was called. -/
def askRoute (question : Option String) (apiKey : Option String)
    (outcome : CallOutcome) : String × Bool :=
  match question with
  | none => ("Please provide a question.", false)
  | some q =>
    if jsTrim q = "" then ("Please provide a question.", false)
    else
      match apiKey with
      | none => ("Backend error: Missing GEMINI_API_KEY.", false)
      | some _ =>
        match outcome with
        | .ok resp => (pickAnswer resp, true)
        | .fail m => ("Gemini backend error: " ++ m, true)

/-!
## Concrete records used by witnesses and counterexamples
-/

/-- The keys contributed by one duplicate-check chunk under `okSel`. -/
def queryKeys (store : List CodemapRec) (c : List (String × String)) : List String :=
  ((store.filter fun e => (namasteCodes c).contains e.namaste_code).take 1000).map recKey

/-- A stored code mapping with NAMASTE code `AYU-1` and ICD-11 code `X1`. -/
def dupStoreRec : CodemapRec :=
  { namaste_code := "AYU-1", namaste_name := none, icd11_code := "X1", icd11_name := none,
    category := "Ayurveda", symptoms := none, description := none, status := "pending" }

/-- A CSV row whose NAMASTE code differs from `dupStoreRec` only in case. -/
def csvRowLowerNamaste : CsvRow := [("namaste_code", "ayu-1"), ("icd11_code", "X1")]

/-- A CSV row whose NAMASTE code equals that of `dupStoreRec` exactly and
whose ICD-11 code differs only in case. -/
def csvRowExactNamaste : CsvRow := [("namaste_code", "AYU-1"), ("icd11_code", "x1")]

/-- A CSV row that duplicates `dupStoreRec` exactly. -/
def csvRowExactDup : CsvRow := [("namaste_code", "AYU-1"), ("icd11_code", "X1")]

/-- A persisted patient row with a full ISO creation timestamp and an
empty-string email column. -/
def patRowLossy : PatientRow :=
  { id := "p-1", created_at := "2024-01-02T03:04:05.678Z", first_name := "Asha",
    last_name := "Rao", date_of_birth := none, gender := none, admit_date := none,
    email := some "", phone := none, guardian_name := none, guardian_phone := none,
    address := none }

/-- A persisted patient row with no empty-string columns. -/
def patRowClean : PatientRow :=
  { id := "p-2", created_at := "2024-03-04T05:06:07.890Z", first_name := "Ravi",
    last_name := "Iyer", date_of_birth := some "1990-01-01", gender := some "male",
    admit_date := none, email := none, phone := some "555-0100", guardian_name := none,
    guardian_phone := none, address := none }

/-- A domain patient with every optional field absent. -/
def patientNoOptionals : Patient :=
  { id := "p-1", firstName := "Asha", lastName := "Rao", dateOfBirth := none,
    gender := none, admitDate := none, email := none, phone := none,
    guardianName := none, guardianPhone := none, address := none,
    createdAt := "2024-01-02 03:04:05" }

/-- A domain diagnosis with no symptoms and no clinical notes. -/
def diagNoNotes : Diagnosis :=
  { id := "d-1", namasteCode := "AYU-1", icd11Code := "X1", symptoms := none,
    clinicalNotes := none, recordedAt := "2024-01-03 00:00:00" }

/-- A stored diagnosis row created first. -/
def diagRowEarly : DiagnosisRow :=
  { id := "d1", created_at := "2024-01-01T00:00:00", patient_id := "p1",
    namaste_code := "AYU-1", icd11_code := "X1", symptoms := none,
    clinical_notes := none }

/-- A stored diagnosis row created later. -/
def diagRowLate : DiagnosisRow :=
  { id := "d2", created_at := "2024-01-02T00:00:00", patient_id := "p1",
    namaste_code := "AYU-2", icd11_code := "X2", symptoms := none,
    clinical_notes := none }

/-!
## Theorems
-/

theorem charListLe_total : ∀ x y, charListLe x y = true ∨ charListLe y x = true := by
  intro x
  induction x with
  | nil => intro y; left; rfl
  | cons a as ih =>
    intro y
    cases y with
    | nil => right; rfl
    | cons b bs =>
      by_cases hab : a = b
      · subst hab
        rcases ih bs with h | h
        · left; simpa [charListLe] using h
        · right; simpa [charListLe] using h
      · rcases lt_or_gt_of_ne hab with h | h
        · left; simp [charListLe, hab, h]
        · right
          have hba : b ≠ a := fun hh => hab hh.symm
          simp [charListLe, hba, h]

theorem charListLe_trans :
    ∀ x y z, charListLe x y = true → charListLe y z = true → charListLe x z = true := by
  intro x
  induction x with
  | nil => intro y z _ _; rfl
  | cons a as ih =>
    intro y z hxy hyz
    cases y with
    | nil => simp [charListLe] at hxy
    | cons b bs =>
      cases z with
      | nil => simp [charListLe] at hyz
      | cons c cs =>
        by_cases hab : a = b
        · subst hab
          by_cases hbc : a = c
          · subst hbc
            simp [charListLe] at hxy hyz ⊢
            exact ih bs cs hxy hyz
          · simp [charListLe, hbc] at hyz ⊢
            exact hyz
        · by_cases hbc : b = c
          · subst hbc
            simp [charListLe, hab] at hxy ⊢
            exact hxy
          · simp [charListLe, hab] at hxy
            simp [charListLe, hbc] at hyz
            have hac : a < c := lt_trans hxy hyz
            have hne : a ≠ c := ne_of_lt hac
            simp [charListLe, hne, hac]

theorem orUndef_of_ne (o : Option String) (h : o ≠ some "") : orUndef o = o := by
  cases o with
  | none => rfl
  | some s =>
    have hs : s ≠ "" := fun he => h (by rw [he])
    simp [orUndef, hs]

theorem chunksOfAux_join {α : Type} (n : Nat) (hn : 0 < n) :
    ∀ (fuel : Nat) (l : List α), l.length ≤ fuel → (chunksOfAux n fuel l).flatten = l := by
  intro fuel
  induction fuel with
  | zero =>
    intro l hl
    cases l with
    | nil => rfl
    | cons x xs => simp at hl
  | succ f ih =>
    intro l hl
    cases l with
    | nil => rfl
    | cons x xs =>
      have hd : ((x :: xs).drop n).length ≤ f := by
        simp only [List.length_drop, List.length_cons] at *
        omega
      show ((x :: xs).take n :: chunksOfAux n f ((x :: xs).drop n)).flatten = x :: xs
      rw [List.flatten_cons, ih _ hd, List.take_append_drop]

theorem chunksOf_join {α : Type} (n : Nat) (hn : 0 < n) (l : List α) :
    (chunksOf n l).flatten = l :=
  chunksOfAux_join n hn l.length l le_rfl

theorem insertBatches_ok (fail : List CodemapRec → Bool)
    (cs : List (List CodemapRec)) (h : ∀ c ∈ cs, fail c = false) :
    ∀ (store : List CodemapRec) (acc : Nat),
      insertBatches (insOf fail) cs store acc
        = (store ++ cs.flatten, acc + cs.flatten.length, true) := by
  induction cs with
  | nil => intro store acc; simp [insertBatches]
  | cons c cs ih =>
    intro store acc
    have hc : fail c = false := h c (by simp)
    have hrest : ∀ x ∈ cs, fail x = false := fun x hx => h x (by simp [hx])
    rw [insertBatches, insOf]
    simp only [hc, Bool.false_eq_true, if_false]
    rw [ih hrest]
    simp [List.append_assoc]
    omega

theorem insertBatches_first_failure (fail : List CodemapRec → Bool)
    (cs : List (List CodemapRec)) :
    ∀ (store : List CodemapRec) (acc : Nat),
      ∃ k, k ≤ cs.length ∧ (∀ i, i < k → fail (cs.getD i []) = false) ∧
        ((k = cs.length ∧
            insertBatches (insOf fail) cs store acc
              = (store ++ (cs.take k).flatten, acc + ((cs.take k).flatten).length, true)) ∨
         (k < cs.length ∧ fail (cs.getD k []) = true ∧
            insertBatches (insOf fail) cs store acc
              = (store ++ (cs.take k).flatten, acc + ((cs.take k).flatten).length, false))) := by
  induction cs with
  | nil =>
    intro store acc
    exact ⟨0, le_rfl, fun i hi => absurd hi (Nat.not_lt_zero i),
      Or.inl ⟨rfl, by simp [insertBatches]⟩⟩
  | cons c cs ih =>
    intro store acc
    cases hc : fail c with
    | true =>
      refine ⟨0, Nat.zero_le _, fun i hi => absurd hi (Nat.not_lt_zero i), Or.inr ?_⟩
      refine ⟨Nat.succ_pos _, by simpa using hc, ?_⟩
      rw [insertBatches, insOf]
      simp [hc]
    | false =>
      obtain ⟨k, hk, hall, hres⟩ := ih (store ++ c) (acc + c.length)
      refine ⟨k + 1, by simpa using Nat.succ_le_succ hk, ?_, ?_⟩
      · intro i hi
        cases i with
        | zero => simpa using hc
        | succ j => simpa using hall j (Nat.lt_of_succ_lt_succ hi)
      · have hstep : insertBatches (insOf fail) (c :: cs) store acc
            = insertBatches (insOf fail) cs (store ++ c) (acc + c.length) := by
          rw [insertBatches, insOf]
          simp [hc]
        rcases hres with ⟨hkk, heq⟩ | ⟨hkk, hfk, heq⟩
        · refine Or.inl ⟨by simpa using hkk, ?_⟩
          rw [hstep, heq]
          simp [List.append_assoc]
          omega
        · refine Or.inr ⟨by simpa using Nat.succ_lt_succ hkk, by simpa using hfk, ?_⟩
          rw [hstep, heq]
          simp [List.append_assoc]
          omega

theorem collectKeys_okSel (store : List CodemapRec) :
    ∀ (cs : List (List (String × String))) (acc : List String),
      collectKeys (okSel store) cs acc = some (acc ++ (cs.map (queryKeys store)).flatten) := by
  intro cs
  induction cs with
  | nil => intro acc; simp [collectKeys]
  | cons c cs ih =>
    intro acc
    rw [collectKeys, okSel]
    simp only []
    rw [ih]
    simp [queryKeys, List.append_assoc]

theorem mem_dedupKeep : ∀ (l : List String) (x : String), x ∈ dedupKeep l ↔ x ∈ l := by
  intro l
  induction l with
  | nil => intro x; simp [dedupKeep]
  | cons a as ih =>
    intro x
    by_cases hx : x = a
    · subst hx; simp [dedupKeep]
    · simp [dedupKeep, List.mem_filter, ih, hx]

theorem filterOutExisting_skips (store rows : List CodemapRec) (r e : CodemapRec)
    (hr : r ∈ rows) (he : e ∈ store)
    (hn : e.namaste_code = r.namaste_code)
    (hnz : r.namaste_code ≠ "")
    (hkey : recKey e = recKey r)
    (hstore : store.length ≤ 1000) :
    ∃ u, filterOutExisting (okSel store) rows = .filtered u (rows.length - u.length) ∧
      r ∉ u ∧ u.length < rows.length := by
  have hne : rows ≠ [] := by rintro rfl; simp at hr
  have hemp : rows.isEmpty = false := by simpa [List.isEmpty_iff] using hne
  have hpair : (r.namaste_code, r.icd11_code) ∈ rows.map fun r => (r.namaste_code, r.icd11_code) :=
    List.mem_map.mpr ⟨r, hr, rfl⟩
  have hflat : (chunksOf 100 (rows.map fun r => (r.namaste_code, r.icd11_code))).flatten
      = rows.map fun r => (r.namaste_code, r.icd11_code) :=
    chunksOf_join 100 (by omega) _
  have hchunk : ∃ c ∈ chunksOf 100 (rows.map fun r => (r.namaste_code, r.icd11_code)),
      (r.namaste_code, r.icd11_code) ∈ c := by
    have := hflat ▸ hpair
    exact List.mem_flatten.mp this
  obtain ⟨c, hc, hmemc⟩ := hchunk
  have hcode : r.namaste_code ∈ namasteCodes c := by
    have h1 : r.namaste_code ∈ c.map Prod.fst := List.mem_map.mpr ⟨_, hmemc, rfl⟩
    have h2 : r.namaste_code ∈ dedupKeep (c.map Prod.fst) := (mem_dedupKeep _ _).mpr h1
    exact List.mem_filter.mpr ⟨h2, by simp [hnz]⟩
  have hefilter : e ∈ store.filter fun x => (namasteCodes c).contains x.namaste_code := by
    refine List.mem_filter.mpr ⟨he, ?_⟩
    rw [hn]
    exact List.elem_iff.mpr hcode
  have htake : (store.filter fun x => (namasteCodes c).contains x.namaste_code).take 1000
      = store.filter fun x => (namasteCodes c).contains x.namaste_code :=
    List.take_of_length_le (le_trans (List.length_filter_le _ _) hstore)
  have hq : recKey r ∈ queryKeys store c := by
    rw [queryKeys, htake, ← hkey]
    exact List.mem_map.mpr ⟨e, hefilter, rfl⟩
  have hkeys : recKey r ∈ (List.map (queryKeys store)
      (chunksOf 100 (rows.map fun r => (r.namaste_code, r.icd11_code)))).flatten := by
    refine List.mem_flatten.mpr ⟨queryKeys store c, ?_, hq⟩
    exact List.mem_map.mpr ⟨c, hc, rfl⟩
  have hpred : ((List.map (queryKeys store)
      (chunksOf 100 (rows.map fun r => (r.namaste_code, r.icd11_code)))).flatten.contains
        (recKey r)) = true :=
    List.elem_iff.mpr hkeys
  refine ⟨rows.filter (fun x => !((List.map (queryKeys store)
      (chunksOf 100 (rows.map fun r => (r.namaste_code, r.icd11_code)))).flatten.contains
        (recKey x))), ?_, ?_, ?_⟩
  · rw [filterOutExisting]
    simp only [hemp, Bool.false_eq_true, if_false]
    rw [collectKeys_okSel]
    simp only [List.nil_append]
  · intro hru
    have := (List.mem_filter.mp hru).2
    simp only [hpred, Bool.not_true] at this
    exact Bool.false_ne_true this
  · refine List.length_filter_lt_length_iff_exists.mpr ⟨r, hr, ?_⟩
    simp only [hpred, Bool.not_true]
    exact Bool.false_ne_true

theorem filterOutExisting_badSel (rows : List CodemapRec) (h : rows ≠ []) :
    filterOutExisting badSel rows = .plain rows := by
  obtain ⟨r0, rs, rfl⟩ := List.exists_cons_of_ne_nil h
  rfl

theorem bundleEntries_eq (t : String) (p : Patient) (ds : List Diagnosis) :
    bundleEntries (buildBundle t p ds)
      = Json.obj [("resource", patientResource p)] ::
        ds.map (fun d => Json.obj [("resource", conditionResource p.id d)]) := by
  simp [bundleEntries, buildBundle, jLookup, jFind]

theorem conditionEntries_eq (t : String) (p : Patient) (ds : List Diagnosis) :
    conditionEntries (buildBundle t p ds)
      = ds.map (fun d => Json.obj [("resource", conditionResource p.id d)]) := by
  have hpat : entryHasType "Condition" (Json.obj [("resource", patientResource p)]) = false := by
    simp [entryHasType, jLookup, jFind, patientResource]
  have hcond : ∀ d : Diagnosis,
      entryHasType "Condition" (Json.obj [("resource", conditionResource p.id d)]) = true := by
    intro d
    simp [entryHasType, jLookup, jFind, conditionResource]
  rw [conditionEntries, bundleEntries_eq, List.filter_cons]
  simp only [hpat, Bool.false_eq_true, if_false]
  refine List.filter_eq_self.mpr ?_
  intro a ha
  obtain ⟨d, hd, rfl⟩ := List.mem_map.mp ha
  exact hcond d

theorem noNull_telecomEntries_all (p : Patient) :
    (telecomEntries p).all (noNullF 7) = true := by
  rw [telecomEntries, List.all_append]
  cases he : orUndef p.email <;> cases hp : orUndef p.phone <;> simp [noNullF]

theorem noNull_conditionNotes_all (d : Diagnosis) :
    (conditionNotes d).all (noNullF 7) = true := by
  rw [conditionNotes, List.all_append]
  cases hs : orUndef d.symptoms <;> cases hn : orUndef d.clinicalNotes <;> simp [noNullF]

theorem noNull_patientResource (p : Patient) : noNullF 9 (patientResource p) = true := by
  rw [patientResource]
  cases hd : p.dateOfBirth <;> cases hg : p.gender <;> cases ha : orUndef p.address <;>
    simp [noNullF, hd, hg, ha, noNull_telecomEntries_all]

theorem noNull_conditionResource (pid : String) (d : Diagnosis) :
    noNullF 9 (conditionResource pid d) = true := by
  rw [conditionResource]
  simp [noNullF, noNull_conditionNotes_all]

theorem noNull_bundle (t : String) (p : Patient) (ds : List Diagnosis) :
    noNullF 12 (buildBundle t p ds) = true := by
  have h1 := noNull_patientResource p
  have h2 : ∀ d : Diagnosis, noNullF 9 (conditionResource p.id d) = true :=
    fun d => noNull_conditionResource p.id d
  rw [buildBundle]
  revert h1 h2
  generalize patientResource p = pr
  generalize conditionResource p.id = g
  intro h1 h2
  simp [noNullF, h1, h2, List.all_map, Function.comp, List.all_eq_true]

/-!
## Claim theorems
-/

/-- C1 (amended): a CSV row is skipped by the import — excluded from the
inserted rows and counted in the skipped total — whenever the store holds
a mapping whose NAMASTE code equals the row's trimmed NAMASTE code
byte-for-byte and whose lower-cased trimmed (NAMASTE, ICD-11) pair equals
the row's, provided the store fits the per-chunk query limit of 1000.
The case-insensitive comparison applies only to rows the case-sensitive
candidate query returns, so equality up to case alone does not suffice
(see the counterexample). -/
theorem csvImport_skips_exact_namaste_match (store : List CodemapRec) (parsed : List CsvRow)
    (r e : CodemapRec)
    (hr : r ∈ importMapped parsed) (he : e ∈ store)
    (hn : e.namaste_code = r.namaste_code)
    (hkey : recKey e = recKey r)
    (hstore : store.length ≤ 1000) :
    ∃ u, filterOutExisting (okSel store) (importMapped parsed)
        = .filtered u ((importMapped parsed).length - u.length) ∧
      r ∉ u ∧ u.length < (importMapped parsed).length ∧
      csvImport (okSel store) (fun _ => false) store parsed
        = if u.isEmpty then .noNewRows (importMapped parsed).length
          else .complete (store ++ u) u.length ((importMapped parsed).length - u.length) := by
  have hnz : r.namaste_code ≠ "" := by
    have hmem := (List.mem_filter.mp hr).2
    rw [Bool.and_eq_true, decide_eq_true_eq, decide_eq_true_eq] at hmem
    exact hmem.1
  obtain ⟨u, hfu, hru, hlen⟩ :=
    filterOutExisting_skips store (importMapped parsed) r e hr he hn hnz hkey hstore
  refine ⟨u, hfu, hru, hlen, ?_⟩
  have hparsed : parsed ≠ [] := by
    rintro rfl
    simp [importMapped] at hr
  have hpemp : parsed.isEmpty = false := by simpa [List.isEmpty_iff] using hparsed
  have hmne : importMapped parsed ≠ [] := by
    rintro hnil
    rw [hnil] at hr
    simp at hr
  have hmemp : (importMapped parsed).isEmpty = false := by
    simpa [List.isEmpty_iff] using hmne
  rw [csvImport]
  simp only [hpemp, Bool.false_eq_true, if_false, hmemp, hfu]
  by_cases hu : u.isEmpty
  · simp [hu]
  · have hu' : u.isEmpty = false := by simpa using hu
    rw [insertBatches_ok (fun _ => false) (chunksOf 200 u) (fun c hc => rfl) store 0]
    simp only [hu', Bool.false_eq_true, if_false, chunksOf_join 200 (by omega) u, Nat.zero_add]
    simp

/-- C1 counterexample: the store holds the pair (AYU-1, X1) and the CSV
row carries (ayu-1, X1); the pairs agree on the lower-cased trimmed key,
yet the import inserts the row and reports 0 skipped, because the
candidate query filters on the NAMASTE code case-sensitively. -/
theorem csvImport_case_mismatch_reinserted :
    recKey (mapRowToCodemap csvRowLowerNamaste) = recKey dupStoreRec ∧
    csvImport (okSel [dupStoreRec]) (fun _ => false) [dupStoreRec] [csvRowLowerNamaste]
      = .complete [dupStoreRec, mapRowToCodemap csvRowLowerNamaste] 1 0 :=
  ⟨by decide, by decide⟩

/-- C1 witness: with an exactly matching stored NAMASTE code and an
ICD-11 code differing only in case, the imported row is skipped. -/
theorem csvImport_skips_exact_namaste_match_witness :
    ∃ u, filterOutExisting (okSel [dupStoreRec]) (importMapped [csvRowExactNamaste])
        = .filtered u ((importMapped [csvRowExactNamaste]).length - u.length) ∧
      mapRowToCodemap csvRowExactNamaste ∉ u ∧
      u.length < (importMapped [csvRowExactNamaste]).length ∧
      csvImport (okSel [dupStoreRec]) (fun _ => false) [dupStoreRec] [csvRowExactNamaste]
        = if u.isEmpty then .noNewRows (importMapped [csvRowExactNamaste]).length
          else .complete ([dupStoreRec] ++ u) u.length
            ((importMapped [csvRowExactNamaste]).length - u.length) :=
  csvImport_skips_exact_namaste_match [dupStoreRec] [csvRowExactNamaste]
    (mapRowToCodemap csvRowExactNamaste) dupStoreRec
    (by decide) (by decide) (by decide) (by decide) (by decide)

/-- C2 (amended): the FHIR bundle builder is a pure function of the
invocation time, the patient and the diagnosis list, and two invocations
on an identical patient and identical diagnoses produce bundles that
agree on everything except the top-level timestamp field: removing that
field yields equal documents.  The builder consults nothing else, but the
timestamp is read from the clock, so the full documents of two
invocations need not be equal (see the counterexample). -/
theorem buildBundle_deterministic_modulo_timestamp (t1 t2 : String) (p : Patient)
    (ds : List Diagnosis) :
    stripTop "timestamp" (buildBundle t1 p ds) = stripTop "timestamp" (buildBundle t2 p ds) := by
  simp [buildBundle, stripTop]

/-- C2 counterexample: the same patient and the same (empty) diagnosis
list exported at two different clock instants give different bundles. -/
theorem buildBundle_timestamp_dependent :
    buildBundle "2025-01-01T00:00:00.000Z" patientNoOptionals []
      ≠ buildBundle "2025-01-01T00:00:01.000Z" patientNoOptionals [] := by
  intro h
  simp [buildBundle] at h

/-- C3 (amended): the patient list and the code-mapping list are returned
ordered by creation timestamp descending, but the diagnosis list of a
patient is returned ordered by creation timestamp ascending; creation
timestamp is the sort key of every list operation. -/
theorem gateway_list_order :
    (∀ store : List PatientListRow,
      List.Sorted (fun a b => tsLe b.created_at a.created_at = true) (fetchPatients store)) ∧
    (∀ store : List CodemapRow,
      List.Sorted (fun a b => tsLe b.created_at a.created_at = true) (fetchMappings store)) ∧
    (∀ (pid : String) (store : List DiagnosisRow),
      List.Sorted (fun a b => tsLe a.created_at b.created_at = true) (loadDiagnoses pid store)) := by
  refine ⟨?_, ?_, ?_⟩
  · intro store
    haveI h1 : IsTotal PatientListRow (fun a b => tsLe b.created_at a.created_at = true) :=
      ⟨fun a b => charListLe_total _ _⟩
    haveI h2 : IsTrans PatientListRow (fun a b => tsLe b.created_at a.created_at = true) :=
      ⟨fun a b c hab hbc => charListLe_trans _ _ _ hbc hab⟩
    exact List.sorted_insertionSort _ _
  · intro store
    haveI h1 : IsTotal CodemapRow (fun a b => tsLe b.created_at a.created_at = true) :=
      ⟨fun a b => charListLe_total _ _⟩
    haveI h2 : IsTrans CodemapRow (fun a b => tsLe b.created_at a.created_at = true) :=
      ⟨fun a b c hab hbc => charListLe_trans _ _ _ hbc hab⟩
    exact List.sorted_insertionSort _ _
  · intro pid store
    haveI h1 : IsTotal DiagnosisRow (fun a b => tsLe a.created_at b.created_at = true) :=
      ⟨fun a b => charListLe_total _ _⟩
    haveI h2 : IsTrans DiagnosisRow (fun a b => tsLe a.created_at b.created_at = true) :=
      ⟨fun a b c hab hbc => charListLe_trans _ _ _ hab hbc⟩
    exact List.sorted_insertionSort _ _

/-- C3 counterexample: a patient's diagnosis list comes back oldest
first — ascending creation order, not descending as claimed. -/
theorem loadDiagnoses_ascending :
    loadDiagnoses "p1" [diagRowLate, diagRowEarly] = [diagRowEarly, diagRowLate] ∧
    ¬ List.Sorted (fun a b : DiagnosisRow => tsLe b.created_at a.created_at = true)
      (loadDiagnoses "p1" [diagRowLate, diagRowEarly]) :=
  ⟨by decide, by decide⟩

/-- C4 (amended): for a persisted patient row none of whose optional
columns holds the empty string, mapping to the domain object and back is
lossless for every field except the creation timestamp, which is
reformatted (truncated to seconds, with the first T replaced by a
space) and not restored; every null column becomes an absent field of
the domain object.  An empty-string column is also turned into an absent
field (and round-trips to null), and the timestamp reformatting loses
data on every full ISO timestamp (see the counterexample). -/
theorem mapPatient_roundtrip (r : PatientRow)
    (h1 : r.date_of_birth ≠ some "") (h2 : r.gender ≠ some "")
    (h3 : r.admit_date ≠ some "") (h4 : r.email ≠ some "")
    (h5 : r.phone ≠ some "") (h6 : r.guardian_name ≠ some "")
    (h7 : r.guardian_phone ≠ some "") (h8 : r.address ≠ some "") :
    patientToRow (mapPatient r) = { r with created_at := fmtTimestamp r.created_at } ∧
    (r.date_of_birth = none → (mapPatient r).dateOfBirth = none) ∧
    (r.gender = none → (mapPatient r).gender = none) ∧
    (r.admit_date = none → (mapPatient r).admitDate = none) ∧
    (r.email = none → (mapPatient r).email = none) ∧
    (r.phone = none → (mapPatient r).phone = none) ∧
    (r.guardian_name = none → (mapPatient r).guardianName = none) ∧
    (r.guardian_phone = none → (mapPatient r).guardianPhone = none) ∧
    (r.address = none → (mapPatient r).address = none) := by
  refine ⟨?_, ?_, ?_, ?_, ?_, ?_, ?_, ?_, ?_⟩
  · cases r
    simp_all [patientToRow, mapPatient, orUndef_of_ne]
  all_goals intro h
  all_goals simp [mapPatient, h, orUndef]

/-- C4 counterexample: a row with a full ISO creation timestamp and an
empty-string email column does not round-trip: the timestamp is
reformatted and the non-null email column comes back null. -/
theorem mapPatient_roundtrip_lossy :
    patientToRow (mapPatient patRowLossy) ≠ patRowLossy ∧
    (mapPatient patRowLossy).createdAt = "2024-01-02 03:04:05" ∧
    patRowLossy.created_at = "2024-01-02T03:04:05.678Z" ∧
    patRowLossy.email = some "" ∧ (mapPatient patRowLossy).email = none :=
  ⟨by decide, by decide, by decide, by decide, by decide⟩

/-- C4 witness: the round-trip law holds for a clean row, up to the
timestamp reformatting. -/
theorem mapPatient_roundtrip_witness :
    patientToRow (mapPatient patRowClean)
      = { patRowClean with created_at := fmtTimestamp patRowClean.created_at } :=
  (mapPatient_roundtrip patRowClean (by decide) (by decide) (by decide) (by decide)
    (by decide) (by decide) (by decide) (by decide)).1

/-- C5: the exported bundle of a patient with zero diagnoses has exactly
one entry, the Patient resource; with any diagnosis list it has exactly
one Condition entry per diagnosis, and every Condition entry's subject
reference is the string Patient followed by a slash and the patient
id. -/
theorem exportFHIR_entries :
    (∀ (t : String) (p : Patient),
      bundleEntries (buildBundle t p []) = [Json.obj [("resource", patientResource p)]]) ∧
    (∀ (t : String) (p : Patient) (ds : List Diagnosis),
      (conditionEntries (buildBundle t p ds)).length = ds.length) ∧
    (∀ (t : String) (p : Patient) (ds : List Diagnosis) (e : Json),
      e ∈ conditionEntries (buildBundle t p ds) →
        subjectRef e = some (Json.str ("Patient/" ++ p.id))) := by
  refine ⟨?_, ?_, ?_⟩
  · intro t p
    rw [bundleEntries_eq]
    rfl
  · intro t p ds
    rw [conditionEntries_eq, List.length_map]
  · intro t p ds e he
    rw [conditionEntries_eq] at he
    obtain ⟨d, hd, rfl⟩ := List.mem_map.mp he
    simp [subjectRef, jLookup, jFind, conditionResource]

/-- C5 witness: the single Condition entry of a one-diagnosis bundle
references the exporting patient. -/
theorem exportFHIR_entries_witness :
    subjectRef (Json.obj [("resource", conditionResource patientNoOptionals.id diagNoNotes)])
      = some (Json.str ("Patient/" ++ patientNoOptionals.id)) :=
  exportFHIR_entries.2.2 "2025-01-01T00:00:00.000Z" patientNoOptionals [diagNoNotes]
    (Json.obj [("resource", conditionResource patientNoOptionals.id diagNoNotes)])
    (by rw [conditionEntries_eq]; simp)

/-- C6 (amended): the exported bundle never contains a JSON null, and the
scalar fields birthDate, gender and address are omitted when their
source is absent; but the telecom and note arrays are always emitted,
as empty arrays when email and phone (respectively symptoms and
clinical notes) are all absent — an empty placeholder the original
claim rules out (see the counterexample). -/
theorem exportFHIR_elision (t : String) (p : Patient) (ds : List Diagnosis) :
    noNullF 12 (buildBundle t p ds) = true ∧
    (p.dateOfBirth = none → jLookup (patientResource p) "birthDate" = none) ∧
    (p.gender = none → jLookup (patientResource p) "gender" = none) ∧
    (p.address = none → jLookup (patientResource p) "address" = none) ∧
    (p.email = none → p.phone = none →
      jLookup (patientResource p) "telecom" = some (Json.arr [])) ∧
    (∀ d : Diagnosis, d.symptoms = none → d.clinicalNotes = none →
      jLookup (conditionResource p.id d) "note" = some (Json.arr [])) := by
  refine ⟨noNull_bundle t p ds, ?_, ?_, ?_, ?_, ?_⟩
  · intro h
    cases hg : p.gender <;> cases ha : orUndef p.address <;>
      simp [patientResource, jLookup, jFind, h, hg, ha]
  · intro h
    cases hd : p.dateOfBirth <;> cases ha : orUndef p.address <;>
      simp [patientResource, jLookup, jFind, h, hd, ha]
  · intro h
    cases hd : p.dateOfBirth <;> cases hg : p.gender <;>
      simp [patientResource, jLookup, jFind, h, hd, hg, orUndef]
  · intro he hp
    cases hd : p.dateOfBirth <;> cases hg : p.gender <;>
      simp [patientResource, jLookup, jFind, telecomEntries, he, hp, hd, hg, orUndef]
  · intro d hs hn
    simp [conditionResource, conditionNotes, jLookup, jFind, hs, hn, orUndef]

/-- C6 counterexample: for a patient with no email and no phone the
Patient resource still carries a telecom property whose value is the
empty array — an emitted empty placeholder for absent sources. -/
theorem exportFHIR_empty_telecom_emitted :
    patientNoOptionals.email = none ∧ patientNoOptionals.phone = none ∧
    jLookup (patientResource patientNoOptionals) "telecom" = some (Json.arr []) :=
  ⟨rfl, rfl, rfl⟩

/-- C6 witness: an absent birth date is omitted from the exported
Patient resource. -/
theorem exportFHIR_elision_witness :
    jLookup (patientResource patientNoOptionals) "birthDate" = none :=
  (exportFHIR_elision "2025-01-01T00:00:00.000Z" patientNoOptionals []).2.1 rfl

/-- C7: CSV header synonyms resolve case-insensitively to the same target
field taking the first non-blank match in candidate order; a mapped row
still missing its NAMASTE or ICD-11 code is dropped from the import
set; category defaults to Ayurveda and status to pending when the
looked-up value is absent or invalid. -/
theorem mapRowToCodemap_synonyms :
    (∀ v i : String, jsTrim v ≠ "" → jsTrim i ≠ "" →
      mapRowToCodemap [("NAMASTE Code", v), ("icd11_code", i)]
          = mapRowToCodemap [("namaste_code", v), ("icd11_code", i)] ∧
      mapRowToCodemap [("namaste", v), ("icd11_code", i)]
          = mapRowToCodemap [("namaste_code", v), ("icd11_code", i)] ∧
      (mapRowToCodemap [("namaste_code", v), ("icd11_code", i)]).namaste_code = jsTrim v) ∧
    (∀ v w i : String, jsTrim v ≠ "" → jsTrim w ≠ "" → jsTrim i ≠ "" →
      (mapRowToCodemap [("namaste_code", v), ("namaste", w), ("icd11_code", i)]).namaste_code
          = jsTrim v ∧
      (mapRowToCodemap [("namaste_code", "  "), ("namaste", w), ("icd11_code", i)]).namaste_code
          = jsTrim w) ∧
    (∀ (parsed : List CsvRow) (r : CodemapRec), r ∈ importMapped parsed →
      r.namaste_code ≠ "" ∧ r.icd11_code ≠ "") ∧
    (∀ (parsed : List CsvRow) (row : CsvRow), row ∈ parsed →
      (mapRowToCodemap row).namaste_code = "" ∨ (mapRowToCodemap row).icd11_code = "" →
      mapRowToCodemap row ∉ importMapped parsed) ∧
    (∀ row : CsvRow, findField row ["category", "system", "trad_system"] = none →
      (mapRowToCodemap row).category = "Ayurveda") ∧
    (∀ (row : CsvRow) (c : String), findField row ["category", "system", "trad_system"] = some c →
      (["Ayurveda", "Siddha", "Unani"] : List String).contains c = false →
      (mapRowToCodemap row).category = "Ayurveda") ∧
    (∀ row : CsvRow, findField row ["status"] = none →
      (mapRowToCodemap row).status = "pending") ∧
    (∀ (row : CsvRow) (s : String), findField row ["status"] = some s →
      (["verified", "pending", "rejected"] : List String).contains (jsLower s) = false →
      (mapRowToCodemap row).status = "pending") := by
  have hA : normalizeKey "NAMASTE Code" = "namaste code" := by decide
  have hB : normalizeKey "namaste_code" = "namaste_code" := by decide
  have hC : normalizeKey "namaste" = "namaste" := by decide
  have hD : normalizeKey "icd11_code" = "icd11_code" := by decide
  have hE : jsTrim "  " = "" := by decide
  refine ⟨?_, ?_, ?_, ?_, ?_, ?_, ?_, ?_⟩
  · intro v i hv hi
    refine ⟨?_, ?_, ?_⟩ <;>
      simp [mapRowToCodemap, findField, lookupNorm, hA, hB, hC, hD, hv, hi]
  · intro v w i hv hw hi
    refine ⟨?_, ?_⟩ <;>
      simp [mapRowToCodemap, findField, lookupNorm, hB, hC, hD, hv, hw, hi, hE]
  · intro parsed r hr
    have hmem := (List.mem_filter.mp hr).2
    rw [Bool.and_eq_true, decide_eq_true_eq, decide_eq_true_eq] at hmem
    exact hmem
  · intro parsed row hrow hbad hmem
    have h2 := (List.mem_filter.mp hmem).2
    rw [Bool.and_eq_true, decide_eq_true_eq, decide_eq_true_eq] at h2
    rcases hbad with hb | hb
    · exact h2.1 hb
    · exact h2.2 hb
  · intro row h
    simp [mapRowToCodemap, h]
  · intro row c hfind hc
    simp [mapRowToCodemap, hfind]
    intro hdisj
    exact absurd hdisj (by simpa using hc)
  · intro row h
    have hl : jsLower "pending" = "pending" := by decide
    simp [mapRowToCodemap, h, hl]
  · intro row s hfind hs
    simp [mapRowToCodemap, hfind]
    intro hdisj
    exact absurd hdisj (by simpa using hs)

/-- C7 witness: the header written NAMASTE Code populates the same field
as the header namaste_code. -/
theorem mapRowToCodemap_synonyms_witness :
    mapRowToCodemap [("NAMASTE Code", "AYU-1"), ("icd11_code", "X1")]
        = mapRowToCodemap [("namaste_code", "AYU-1"), ("icd11_code", "X1")] ∧
    mapRowToCodemap [("namaste", "AYU-1"), ("icd11_code", "X1")]
        = mapRowToCodemap [("namaste_code", "AYU-1"), ("icd11_code", "X1")] ∧
    (mapRowToCodemap [("namaste_code", "AYU-1"), ("icd11_code", "X1")]).namaste_code
        = jsTrim "AYU-1" :=
  mapRowToCodemap_synonyms.1 "AYU-1" "X1" (by decide) (by decide)

/-- C8: the CSV insert loop commits a prefix of the 200-row batches: some
first k batches all succeed and are appended to the store in order;
when k is not the whole batch list the k-th batch is the one that
failed, nothing after the failed batch is attempted or inserted, and
the rows of the first k batches remain committed — there is no
rollback. -/
theorem csvInsert_prefix_commit (fail : List CodemapRec → Bool)
    (rows store : List CodemapRec) :
    ∃ k, k ≤ (chunksOf 200 rows).length ∧
      (∀ i, i < k → fail ((chunksOf 200 rows).getD i []) = false) ∧
      ((k = (chunksOf 200 rows).length ∧
          insertBatches (insOf fail) (chunksOf 200 rows) store 0
            = (store ++ ((chunksOf 200 rows).take k).flatten,
               (((chunksOf 200 rows).take k).flatten).length, true)) ∨
       (k < (chunksOf 200 rows).length ∧ fail ((chunksOf 200 rows).getD k []) = true ∧
          insertBatches (insOf fail) (chunksOf 200 rows) store 0
            = (store ++ ((chunksOf 200 rows).take k).flatten,
               (((chunksOf 200 rows).take k).flatten).length, false))) := by
  obtain ⟨k, hk, hall, hres⟩ := insertBatches_first_failure fail (chunksOf 200 rows) store 0
  refine ⟨k, hk, hall, ?_⟩
  rcases hres with ⟨hkk, heq⟩ | ⟨hkk, hfk, heq⟩
  · exact Or.inl ⟨hkk, by simpa using heq⟩
  · exact Or.inr ⟨hkk, hfk, by simpa using heq⟩

/-- C8 witness: a run of the insert loop on one batch that the store
rejects commits nothing and stops. -/
theorem csvInsert_prefix_commit_witness :
    ∃ k, k ≤ (chunksOf 200 [dupStoreRec]).length ∧
      (∀ i, i < k → (fun _ => true) ((chunksOf 200 [dupStoreRec]).getD i []) = false) ∧
      ((k = (chunksOf 200 [dupStoreRec]).length ∧
          insertBatches (insOf (fun _ => true)) (chunksOf 200 [dupStoreRec]) [] 0
            = ([] ++ ((chunksOf 200 [dupStoreRec]).take k).flatten,
               (((chunksOf 200 [dupStoreRec]).take k).flatten).length, true)) ∨
       (k < (chunksOf 200 [dupStoreRec]).length ∧
          (fun _ => true) ((chunksOf 200 [dupStoreRec]).getD k []) = true ∧
          insertBatches (insOf (fun _ => true)) (chunksOf 200 [dupStoreRec]) [] 0
            = ([] ++ ((chunksOf 200 [dupStoreRec]).take k).flatten,
               (((chunksOf 200 [dupStoreRec]).take k).flatten).length, false))) :=
  csvInsert_prefix_commit (fun _ => true) [dupStoreRec] []

/-- C9 (amended): the chat route answers a missing, empty or
whitespace-only question with a fixed message and no external call;
answers with a fixed message and no external call when the API
credential is absent; returns the first candidate's first text part
verbatim when that part is present and non-empty; falls back to the
block reason or a fixed message otherwise; and on a failed call returns
the fixed prefix Gemini backend error followed by the error message —
a fixed format, not one fixed string (see the counterexample). -/
theorem askRoute_behavior :
    (∀ (k : Option String) (o : CallOutcome),
      askRoute none k o = ("Please provide a question.", false)) ∧
    (∀ (q : String) (k : Option String) (o : CallOutcome), jsTrim q = "" →
      askRoute (some q) k o = ("Please provide a question.", false)) ∧
    (∀ (q : String) (o : CallOutcome), jsTrim q ≠ "" →
      askRoute (some q) none o = ("Backend error: Missing GEMINI_API_KEY.", false)) ∧
    (∀ (q k t : String) (r : GenResponse), jsTrim q ≠ "" → r.firstText = some t → t ≠ "" →
      askRoute (some q) (some k) (.ok r) = (t, true)) ∧
    (∀ (q k : String) (r : GenResponse), jsTrim q ≠ "" →
      orUndef r.firstText = none → orUndef r.blockReason = none →
      askRoute (some q) (some k) (.ok r) = ("I could not generate a response.", true)) ∧
    (∀ (q k m : String), jsTrim q ≠ "" →
      askRoute (some q) (some k) (.fail m) = ("Gemini backend error: " ++ m, true)) := by
  refine ⟨?_, ?_, ?_, ?_, ?_, ?_⟩
  · intro k o; rfl
  · intro q k o h; simp [askRoute, h]
  · intro q o h; simp [askRoute, h]
  · intro q k t r hq ht htne
    simp [askRoute, hq, pickAnswer, ht, orUndef, htne]
  · intro q k r hq h1 h2
    simp [askRoute, hq, pickAnswer, h1, h2]
  · intro q k m hq
    simp [askRoute, hq]

/-- C9 counterexample: two failed calls with different error messages get
different answer strings, so the failure answer is not one fixed error
string. -/
theorem askRoute_error_not_fixed :
    (askRoute (some "hello") (some "key") (.fail "network down")).1
        = "Gemini backend error: network down" ∧
    (askRoute (some "hello") (some "key") (.fail "timeout")).1
        = "Gemini backend error: timeout" ∧
    (askRoute (some "hello") (some "key") (.fail "network down")).1
        ≠ (askRoute (some "hello") (some "key") (.fail "timeout")).1 :=
  ⟨by decide, by decide, by decide⟩

/-- C9 witness: a successful call returns its first candidate text
verbatim. -/
theorem askRoute_behavior_witness :
    askRoute (some "what is AYU-1") (some "key")
        (.ok { firstText := some "A NAMASTE code.", blockReason := none })
      = ("A NAMASTE code.", true) :=
  askRoute_behavior.2.2.2.1 "what is AYU-1" "key" "A NAMASTE code."
    { firstText := some "A NAMASTE code.", blockReason := none }
    (by decide) (by decide) (by decide)

/-- C10: when the duplicate-check select fails, the import falls back to
the unfiltered mapped rows: every mapped row, duplicates included, is
passed to the insert loop and the reported skipped count is 0. -/
theorem csvImport_dupcheck_error (store : List CodemapRec) (parsed : List CsvRow)
    (h : importMapped parsed ≠ []) :
    csvImport badSel (fun _ => false) store parsed
      = .complete (store ++ importMapped parsed) (importMapped parsed).length 0 := by
  have hparsed : parsed ≠ [] := by
    rintro rfl
    simp [importMapped] at h
  have hpemp : parsed.isEmpty = false := by simpa [List.isEmpty_iff] using hparsed
  have hmemp : (importMapped parsed).isEmpty = false := by
    simpa [List.isEmpty_iff] using h
  rw [csvImport]
  simp only [hpemp, Bool.false_eq_true, if_false, hmemp,
    filterOutExisting_badSel (importMapped parsed) h]
  rw [insertBatches_ok (fun _ => false) (chunksOf 200 (importMapped parsed))
    (fun c hc => rfl) store 0]
  simp only [hmemp, Bool.false_eq_true, if_false,
    chunksOf_join 200 (by omega) (importMapped parsed), Nat.zero_add]
  simp

/-- C10 witness: with a failing duplicate check, a row that duplicates a
stored mapping exactly is still inserted and 0 rows are reported
skipped. -/
theorem csvImport_dupcheck_error_witness :
    csvImport badSel (fun _ => false) [dupStoreRec] [csvRowExactDup]
      = .complete ([dupStoreRec] ++ importMapped [csvRowExactDup])
          (importMapped [csvRowExactDup]).length 0 :=
  csvImport_dupcheck_error [dupStoreRec] [csvRowExactDup] (by decide)
